import Mathlib

/-!
Verification of `src/metric/weighted_dcg_calculator.cpp` (LightGBM fork,
`WeightedDCGCalculator`).

Shallow embedding conventions:
* `double` values are embedded as `ℚ` where the source computes rational
  arithmetic (gains, labels, scores, thetas) and as `ℝ` where it is
  genuinely transcendental (the discount table `1 / log2(2 + i)` and the
  DCG sums built from it).
* `label_t` labels reaching `CalGain` are embedded as `ℤ` (the source
  casts the float label to `int` before the gain computation);
  `CheckLabel` sees raw labels, embedded as `ℚ`.
* Raw pointer-plus-length array parameters are embedded as `List`s with a
  separate count; a function returns `none` when the source would read an
  array out of its range, and `some result` otherwise.
* The static state of the class (`label_gain_`, `discount_`) is an explicit
  `DCGState` record threaded through the member functions; `Init`
  constructs it exactly as `WeightedDCGCalculator::Init` does.
* `std::sort` on a vector of values followed by `std::reverse` is embedded
  as `List.insertionSort (· ≤ ·)` followed by `List.reverse`: sorting
  values under a total order has a unique result, so any sorting algorithm
  is an exact model.  `std::stable_sort` on indices with comparator
  `score[a] > score[b]` is embedded as `List.insertionSort` with the
  non-strict relation `score[b] ≤ score[a]`, which is stable in exactly
  the same sense (ties keep original order).
-/

namespace LightGBM

/-- `const data_size_t WeightedDCGCalculator::kMaxPosition = 10000;` -/
def kMaxPosition : ℕ := 10000

/-- Wrap-around interpretation of 32-bit signed `int` arithmetic: reduce
modulo `2^32` into `[-2^31, 2^31)`. -/
def wrap32 (v : ℤ) : ℤ := (v + 2 ^ 31) % 2 ^ 32 - 2 ^ 31

/-- `WeightedDCGCalculator::CalGain(int l, double th1, double th2)`.
The final branch `static_cast<double>((1 << l) - 1)` is 32-bit signed
`int` arithmetic, embedded as wrap-around modulo `2^32` with the shift
count masked modulo 32 (the behavior common hardware gives where the C++
shift overflows or the shift count reaches the width); for `0 ≤ l ≤ 30`
this is exactly `2 ^ l - 1`. -/
def CalGain (l : ℤ) (th1 th2 : ℚ) : ℚ :=
  if l = 0 then 0
  else if l = 1 then 1 / th1
  else if l = 2 then 2 / (th1 * th2) + 1 / th1
  else (wrap32 (2 ^ (l.toNat % 32) - 1) : ℚ)

/-- One entry of the discount table built by `Init`:
`discount_[i] = 1.0 / std::log2(2.0 + i)`. -/
noncomputable def discountAt (i : ℕ) : ℝ := 1 / Real.logb 2 (2 + i)

/-- The static members `label_gain_` and `discount_` of
`WeightedDCGCalculator`, made an explicit state record. -/
structure DCGState where
  label_gain_ : List ℚ
  discount_ : List ℝ

/-- `WeightedDCGCalculator::Init(const std::vector<double>& input_label_gain)`:
copies the label-gain table and fills the discount table with
`1 / log2(2 + i)` for `i < kMaxPosition`. -/
noncomputable def Init (input_label_gain : List ℚ) : DCGState :=
  { label_gain_ := input_label_gain
    discount_ := List.map (fun i : ℕ => discountAt i) (List.range kMaxPosition) }

/-- The gain vector built by the loops
`for(j=0; j<m; ++j) gains[j] = CalGain(label[j], theta1[j], theta2[j]);`
(`m = k` in `CalMaxDCGAtK`, `m = num_data` in `CalMaxDCG`). -/
def gainsOfFirst (m : ℕ) (label : List ℤ) (theta1 theta2 : List ℚ) : List ℚ :=
  List.map (fun j => CalGain (label.getD j 0) (theta1.getD j 0) (theta2.getD j 0))
    (List.range m)

/-- `std::sort(gains.begin(), gains.end()); std::reverse(...)`. -/
def sortDescending (g : List ℚ) : List ℚ :=
  (List.insertionSort (fun a b => a ≤ b) g).reverse

/-- `ret += discount_[j] * gains[j]` accumulated for `j` in `[a, b)`. -/
noncomputable def dcgSum (disc : List ℝ) (gains : List ℚ) (a b : ℕ) : ℝ :=
  ∑ j ∈ Finset.Ico a b, disc.getD j 0 * ((gains.getD j 0 : ℚ) : ℝ)

/-- `WeightedDCGCalculator::CalMaxDCGAtK(k, label, theta1, theta2, num_data)`.
The source builds `gains(k)` and reads `label[j]`, `theta1[j]`, `theta2[j]`
for `j < k` BEFORE clamping `k` to `num_data`; those reads are modelled by
the outer guard (`none` = out-of-range read).  The clamp `if (k > num_data)
k = num_data;` happens only afterwards, and the final loop reads
`discount_[j]` for `j` below the clamped `k`. -/
noncomputable def CalMaxDCGAtK (s : DCGState) (k : ℕ) (label : List ℤ)
    (theta1 theta2 : List ℚ) (num_data : ℕ) : Option ℝ :=
  if k ≤ label.length ∧ k ≤ theta1.length ∧ k ≤ theta2.length then
    if min k num_data ≤ s.discount_.length then
      some (dcgSum s.discount_ (sortDescending (gainsOfFirst k label theta1 theta2))
        0 (min k num_data))
    else none
  else none

/-- The cumulative one-pass loop shared by `CalMaxDCG` and `CalDCG`:
for each cutoff `k` (clamped to `num_data`), accumulate
`discount_[j] * gains[j]` for `j` in `[cur_left, k)`, record the running
total, and set `cur_left` to the clamped cutoff.  `none` when a
`discount_` read would be out of range (the body only reads when
`cur_left < kc`). -/
noncomputable def dcgLoop (disc : List ℝ) (gains : List ℚ) (num_data : ℕ) :
    List ℕ → ℝ → ℕ → Option (List ℝ)
  | [], _, _ => some []
  | k :: rest, cur, left =>
    if min k num_data ≤ left ∨ min k num_data ≤ disc.length then
      Option.map (fun out => (cur + dcgSum disc gains left (min k num_data)) :: out)
        (dcgLoop disc gains num_data rest
          (cur + dcgSum disc gains left (min k num_data)) (min k num_data))
    else none

/-- `WeightedDCGCalculator::CalMaxDCG(ks, label, theta1, theta2, num_data, out)`:
gains of ALL `num_data` items, sorted descending, then the one-pass
cumulative loop over the cutoffs.  The returned list models `*out`. -/
noncomputable def CalMaxDCG (s : DCGState) (ks : List ℕ) (label : List ℤ)
    (theta1 theta2 : List ℚ) (num_data : ℕ) : Option (List ℝ) :=
  if num_data ≤ label.length ∧ num_data ≤ theta1.length ∧ num_data ≤ theta2.length then
    dcgLoop s.discount_ (sortDescending (gainsOfFirst num_data label theta1 theta2))
      num_data ks 0 0
  else none

/-- The index permutation built by `CalDCG`:
`std::stable_sort(sorted_idx…, [score](a, b){return score[a] > score[b];})`. -/
def sortedIdxByScore (score : List ℚ) (num_data : ℕ) : List ℕ :=
  List.insertionSort (fun a b => score.getD b 0 ≤ score.getD a 0)
    (List.range num_data)

/-- `WeightedDCGCalculator::CalDCG(ks, label, score, theta1, theta2, num_data, out)`.
The source computes `CalGain(label[idx], theta1[idx], theta2[idx])` at
`idx = sorted_idx[j]` for each visited rank `j`; since every visited `j`
is below `num_data` and `sorted_idx` permutes `[0, num_data)`, this equals
reading position `j` of the rank-ordered gain list built here. -/
noncomputable def CalDCG (s : DCGState) (ks : List ℕ) (label : List ℤ)
    (score : List ℚ) (theta1 theta2 : List ℚ) (num_data : ℕ) : Option (List ℝ) :=
  if num_data ≤ label.length ∧ num_data ≤ score.length ∧
      num_data ≤ theta1.length ∧ num_data ≤ theta2.length then
    dcgLoop s.discount_
      (List.map
        (fun idx => CalGain (label.getD idx 0) (theta1.getD idx 0) (theta2.getD idx 0))
        (sortedIdxByScore score num_data))
      num_data ks 0 0
  else none

/-- Modelled from the spec: `kEpsilon` is the repository-wide numeric
tolerance constant referenced by `CheckLabel` but defined outside this
source file; the spec calls it "a small numeric tolerance" (the
value used in the repository is `1e-15`). -/
def kEpsilon : ℚ := 1 / 10 ^ 15

/-- C-style `static_cast<int>` of a floating value: truncation toward
zero. -/
def truncToInt (x : ℚ) : ℤ := if 0 ≤ x then ⌊x⌋ else ⌈x⌉

/-- The three sequential fatal tests of `CheckLabel` for one label value:
non-integer beyond `kEpsilon` (distance to the `int`-truncation), negative,
or `static_cast<size_t>(label) >= label_gain_.size()`. -/
def labelFatal (sz : ℕ) (x : ℚ) : Bool :=
  decide (|x - (truncToInt x : ℚ)| > kEpsilon) || decide (x < 0) ||
    decide (sz ≤ (truncToInt x).toNat)

/-- `WeightedDCGCalculator::CheckLabel(label, num_data)`: `true` means the
loop completes with no `Log::Fatal`. -/
def CheckLabel (s : DCGState) (label : List ℚ) (num_data : ℕ) : Bool :=
  (List.range num_data).all (fun i => ! labelFatal s.label_gain_.length (label.getD i 0))

/-- `WeightedDCGCalculator::CheckMetadata(metadata, num_queries)`.
`metadata.query_boundaries()` may be `nullptr`, modelled as `none`;
otherwise the boundary array is modelled as a function on indices.
`true` means no query triggers `Log::Fatal` (i.e. every
`query_boundaries[i+1] - query_boundaries[i]` is at most `kMaxPosition`). -/
def CheckMetadata (query_boundaries : Option (ℕ → ℤ)) (num_queries : ℕ) : Bool :=
  match query_boundaries with
  | none => true
  | some qb =>
    if 0 < num_queries then
      (List.range num_queries).all
        (fun i => decide (qb (i + 1) - qb i ≤ (kMaxPosition : ℤ)))
    else true

/-- The ideal-DCG-at-k computation as claim C1 describes it: gains of all
`num_data` items, all of them sorted descending, cutoff clamped to
`num_data`, then the discounted sum over the clamped prefix.  Stated from
the words of the claim for comparison against `CalMaxDCGAtK`. -/
noncomputable def claimMaxDCGAtK (s : DCGState) (k : ℕ) (label : List ℤ)
    (theta1 theta2 : List ℚ) (num_data : ℕ) : ℝ :=
  dcgSum s.discount_ (sortDescending (gainsOfFirst num_data label theta1 theta2))
    0 (min k num_data)

/-! ### Helper lemmas about the initialized state -/

theorem Init_discount_eq (lg : List ℚ) :
    (Init lg).discount_ = List.map (fun i : ℕ => discountAt i) (List.range kMaxPosition) := by
  simp only [Init]

theorem Init_discount_length (lg : List ℚ) :
    (Init lg).discount_.length = kMaxPosition := by
  rw [Init_discount_eq, List.length_map, List.length_range]

theorem Init_discount_getD (lg : List ℚ) (j : ℕ) (h : j < kMaxPosition) :
    (Init lg).discount_.getD j 0 = discountAt j := by
  rw [Init_discount_eq, List.getD_eq_getElem?_getD, List.getElem?_map,
    List.getElem?_range h]
  rfl

theorem logb_two_two : Real.logb 2 2 = 1 :=
  Real.logb_self_eq_one (by norm_num)

theorem discountAt_zero : discountAt 0 = 1 := by
  unfold discountAt
  rw [show (2:ℝ) + (0:ℕ) = 2 by push_cast; ring, logb_two_two]
  norm_num

theorem logb_two_pos (i : ℕ) : 0 < Real.logb 2 (2 + i) := by
  have hi : (0:ℝ) ≤ i := Nat.cast_nonneg i
  exact Real.logb_pos (by norm_num) (by linarith)

theorem discountAt_anti (i j : ℕ) (h : i < j) : discountAt j < discountAt i := by
  have hij : (2:ℝ) + i < 2 + j := by
    have := Nat.cast_lt (α := ℝ) |>.mpr h
    linarith
  have hlog : Real.logb 2 (2 + i) < Real.logb 2 (2 + j) := by
    have hi : (0:ℝ) ≤ i := Nat.cast_nonneg i
    exact Real.logb_lt_logb (by norm_num) (by linarith) hij
  exact one_div_lt_one_div_of_lt (logb_two_pos i) hlog

/-! ### Evaluation helpers at concrete inputs -/

theorem dcgSum_zero_one (disc : List ℝ) (g : List ℚ) :
    dcgSum disc g 0 1 = disc.getD 0 0 * ((g.getD 0 0 : ℚ) : ℝ) := by
  rw [dcgSum, ← Finset.range_eq_Ico, Finset.sum_range_one]

theorem gainsOfFirst_two : gainsOfFirst 2 [0, 3] [1, 1] [1, 1] = [0, 7] := by
  norm_num [gainsOfFirst, CalGain, List.range_succ]
  rw [show Int.toNat 3 % 32 = 3 from rfl]
  norm_num [wrap32]

theorem gainsOfFirst_one : gainsOfFirst 1 [0, 3] [1, 1] [1, 1] = [0] := by
  norm_num [gainsOfFirst, CalGain, List.range_succ]

theorem gainsOfFirst_single : gainsOfFirst 1 [0] [1] [1] = [0] := by
  norm_num [gainsOfFirst, CalGain, List.range_succ]

theorem sortDescending_pair : sortDescending [0, 7] = [7, 0] := by decide

theorem sortDescending_zero : sortDescending [0] = [0] := by decide

/-- `CalMaxDCGAtK` at `k = 1` on items with labels `[0, 3]`, all thetas 1,
`num_data = 2`: only the gain of the first item is computed, so the result is
`discount[0] * 0 = 0`. -/
theorem eval_atK_pair : CalMaxDCGAtK (Init []) 1 [0, 3] [1, 1] [1, 1] 2 = some 0 := by
  simp only [CalMaxDCGAtK]
  rw [if_pos (by norm_num),
    if_pos (by rw [Init_discount_length]; norm_num [kMaxPosition])]
  rw [gainsOfFirst_one, sortDescending_zero, show min 1 2 = 1 from rfl,
    dcgSum_zero_one]
  norm_num

/-- The claim-side ideal DCG at the same input: all gains `[0, 7]` sorted
descending give `discount[0] * 7 = 7`. -/
theorem eval_claim_atK : claimMaxDCGAtK (Init []) 1 [0, 3] [1, 1] [1, 1] 2 = 7 := by
  simp only [claimMaxDCGAtK]
  rw [gainsOfFirst_two, sortDescending_pair, show min 1 2 = 1 from rfl,
    dcgSum_zero_one, Init_discount_getD [] 0 (by norm_num [kMaxPosition]),
    discountAt_zero]
  norm_num

/-- `CalMaxDCG` at cutoffs `[1]` on the same two items computes all gains
`[0, 7]`, sorts them descending, and returns `[discount[0] * 7] = [7]`. -/
theorem eval_maxDCG_pair : CalMaxDCG (Init []) [1] [0, 3] [1, 1] [1, 1] 2 = some [7] := by
  simp only [CalMaxDCG]
  rw [if_pos (by norm_num), gainsOfFirst_two, sortDescending_pair]
  simp only [dcgLoop]
  rw [if_pos (Or.inr (by rw [Init_discount_length]; norm_num [kMaxPosition]))]
  rw [show min 1 2 = 1 from rfl, dcgSum_zero_one,
    Init_discount_getD [] 0 (by norm_num [kMaxPosition]), discountAt_zero]
  norm_num

theorem sortedIdx_pair : sortedIdxByScore [1, 2] 2 = [1, 0] := by decide

theorem rankGains_pair :
    List.map (fun idx => CalGain (([0, 3] : List ℤ).getD idx 0)
      (([1, 1] : List ℚ).getD idx 0) (([1, 1] : List ℚ).getD idx 0))
      (sortedIdxByScore [1, 2] 2) = [7, 0] := by
  rw [sortedIdx_pair]
  norm_num [CalGain]
  rw [show Int.toNat 3 % 32 = 3 from rfl]
  norm_num [wrap32]

/-- `CalDCG` at cutoff `[1]`, labels `[0, 3]`, scores `[1, 2]`: the
score-descending order visits item 1 (label 3, gain 7) first, so the
result is `[discount[0] * 7] = [7]`. -/
theorem eval_dcg_pair :
    CalDCG (Init []) [1] [0, 3] [1, 2] [1, 1] [1, 1] 2 = some [7] := by
  simp only [CalDCG]
  rw [if_pos (by norm_num), rankGains_pair]
  simp only [dcgLoop]
  rw [if_pos (Or.inr (by rw [Init_discount_length]; norm_num [kMaxPosition]))]
  rw [show min 1 2 = 1 from rfl, dcgSum_zero_one,
    Init_discount_getD [] 0 (by norm_num [kMaxPosition]), discountAt_zero]
  norm_num

/-- With `k = 2 > num_data = 1` and a single item, the gain loop of
`CalMaxDCGAtK` reads `label[1]` out of range before the clamp. -/
theorem eval_atK_oob : CalMaxDCGAtK (Init []) 2 [0] [1] [1] 1 = none := by
  simp only [CalMaxDCGAtK]
  rw [if_neg (by norm_num)]

/-- `CalMaxDCG` at cutoff `[2]` with one item clamps the cutoff to 1 and
completes: result `[discount[0] * 0] = [0]`. -/
theorem eval_maxDCG_clamped : CalMaxDCG (Init []) [2] [0] [1] [1] 1 = some [0] := by
  simp only [CalMaxDCG]
  rw [if_pos (by norm_num), gainsOfFirst_single, sortDescending_zero]
  simp only [dcgLoop]
  rw [if_pos (Or.inr (by rw [Init_discount_length]; norm_num [kMaxPosition]))]
  rw [show min 2 1 = 1 from rfl, dcgSum_zero_one]
  norm_num

theorem rankGains_single :
    List.map (fun idx => CalGain (([0] : List ℤ).getD idx 0)
      (([1] : List ℚ).getD idx 0) (([1] : List ℚ).getD idx 0))
      (sortedIdxByScore [5] 1) = [0] := by
  rw [show sortedIdxByScore [5] 1 = [0] from by decide]
  norm_num [CalGain]

/-- `CalDCG` at cutoff `[2]` with one item clamps the cutoff to 1 and
completes: result `[discount[0] * 0] = [0]`. -/
theorem eval_dcg_clamped : CalDCG (Init []) [2] [0] [5] [1] [1] 1 = some [0] := by
  simp only [CalDCG]
  rw [if_pos (by norm_num), rankGains_single]
  simp only [dcgLoop]
  rw [if_pos (Or.inr (by rw [Init_discount_length]; norm_num [kMaxPosition]))]
  rw [show min 2 1 = 1 from rfl, dcgSum_zero_one]
  norm_num

/-- `wrap32` is the identity on values representable in 32-bit signed
arithmetic. -/
theorem wrap32_eq_self (v : ℤ) (h1 : -(2 ^ 31) ≤ v) (h2 : v < 2 ^ 31) :
    wrap32 v = v := by
  have hdouble : (2:ℤ) ^ 32 = 2 ^ 31 + 2 ^ 31 := by norm_num
  unfold wrap32
  rw [Int.emod_eq_of_lt (by linarith) (by rw [hdouble]; linarith)]
  ring

/-- C truncation of an exact natural value. -/
theorem truncToInt_natCast (m : ℕ) : truncToInt (m : ℚ) = (m : ℤ) := by
  unfold truncToInt
  rw [if_pos (by positivity)]
  exact Int.floor_natCast m

/-! ### Claim theorems -/

/-- Claim C1 is violated by the code: `CalMaxDCGAtK` computes gains only
for the FIRST `k` items (`gains(k)`, loop `j < k`) instead of all `n`.
At `k = 1`, labels `[0, 3]`, all thetas 1, `n = 2`, the code returns `0`,
while the computation the claim describes (all `n` gains, sorted
descending, summed with discounts up to the clamped cutoff) returns `7`. -/
theorem calMaxDCGAtK_diverges_from_claim :
    CalMaxDCGAtK (Init []) 1 [0, 3] [1, 1] [1, 1] 2 = some 0 ∧
    claimMaxDCGAtK (Init []) 1 [0, 3] [1, 1] [1, 1] 2 = 7 ∧
    (0 : ℝ) ≠ 7 :=
  ⟨eval_atK_pair, eval_claim_atK, by norm_num⟩

/-- Claim C2 is violated by the code: the observed DCG can exceed the
"ideal" `CalMaxDCGAtK` value on the same items.  Labels `[0, 3]`, thetas
1, scores `[1, 2]`, cutoff 1: `CalDCG` yields `[7]`, but `CalMaxDCGAtK`
yields `0` because it computed only the gain of the first item. -/
theorem calDCG_exceeds_calMaxDCGAtK :
    CalDCG (Init []) [1] [0, 3] [1, 2] [1, 1] [1, 1] 2 = some [7] ∧
    CalMaxDCGAtK (Init []) 1 [0, 3] [1, 1] [1, 1] 2 = some 0 ∧
    ¬ ((7 : ℝ) ≤ 0) :=
  ⟨eval_dcg_pair, eval_atK_pair, by norm_num⟩

/-- Claim C3 is violated by the code: at the ascending cutoff list `[1]`
on labels `[0, 3]` (thetas 1, `n = 2`), `CalMaxDCG` returns `[7]` (gains
of all items) while `CalMaxDCGAtK 1` returns `0` (gain of the first item
only), so `CalMaxDCG ks items [0] ≠ CalMaxDCGAtK (ks[0]) items`. -/
theorem calMaxDCG_disagrees_with_atK :
    CalMaxDCG (Init []) [1] [0, 3] [1, 1] [1, 1] 2 = some [7] ∧
    CalMaxDCGAtK (Init []) 1 [0, 3] [1, 1] [1, 1] 2 = some 0 ∧
    (7 : ℝ) ≠ 0 :=
  ⟨eval_maxDCG_pair, eval_atK_pair, by norm_num⟩

/-- Claim C4 is violated by the code for `CalMaxDCGAtK`: with `k = 2 >
n = 1`, its gain loop reads `label[1]`, `theta1[1]`, `theta2[1]` before
the clamp (modelled as `none` = out-of-range access), while `CalMaxDCG`
and `CalDCG` do clamp the cutoff to `n` and complete without any
out-of-range read. -/
theorem calMaxDCGAtK_reads_out_of_range :
    CalMaxDCGAtK (Init []) 2 [0] [1] [1] 1 = none ∧
    CalMaxDCG (Init []) [2] [0] [1] [1] 1 = some [0] ∧
    CalDCG (Init []) [2] [0] [5] [1] [1] 1 = some [0] :=
  ⟨eval_atK_oob, eval_maxDCG_clamped, eval_dcg_clamped⟩

/-- Claim C6: `CheckLabel` fails exactly when some label among the first
`n` is non-integer beyond the `kEpsilon` tolerance (distance to its
`int`-truncation), or negative, or at least the label-gain table size
after truncation; and every input whose first `n` labels are exact
integers in `[0, table size)` passes (the function is pure, so nothing
else changes). -/
theorem checkLabel_verdict (s : DCGState) (label : List ℚ) (n : ℕ) :
    (CheckLabel s label n = false ↔ ∃ i < n,
      (kEpsilon < |label.getD i 0 - (truncToInt (label.getD i 0) : ℚ)| ∨
       label.getD i 0 < 0 ∨
       s.label_gain_.length ≤ (truncToInt (label.getD i 0)).toNat)) ∧
    ((∀ i < n, ∃ m : ℕ, label.getD i 0 = (m : ℚ) ∧ m < s.label_gain_.length) →
      CheckLabel s label n = true) := by
  constructor
  · simp only [CheckLabel, labelFatal, List.all_eq_false, List.mem_range,
      Bool.not_eq_true', Bool.not_eq_false, Bool.or_eq_true, decide_eq_true_eq,
      gt_iff_lt, exists_prop, not_lt, or_assoc]
  · intro h
    rw [CheckLabel, List.all_eq_true]
    intro i hmem
    have hi : i < n := List.mem_range.mp hmem
    obtain ⟨m, hm, hlt⟩ := h i hi
    have h1 : ¬ (kEpsilon < |label.getD i 0 - (truncToInt (label.getD i 0) : ℚ)|) := by
      rw [hm, truncToInt_natCast]
      push_cast
      rw [sub_self, abs_zero]
      norm_num [kEpsilon]
    have h2 : ¬ (label.getD i 0 < 0) := by
      rw [hm]
      exact not_lt.mpr (Nat.cast_nonneg m)
    have h3 : ¬ (s.label_gain_.length ≤ (truncToInt (label.getD i 0)).toNat) := by
      rw [hm, truncToInt_natCast, Int.toNat_natCast]
      omega
    have hfatal : labelFatal s.label_gain_.length (label.getD i 0) = false := by
      simp only [labelFatal, Bool.or_eq_false_iff, decide_eq_false_iff_not, gt_iff_lt]
      exact ⟨⟨h1, h2⟩, h3⟩
    rw [hfatal]
    rfl

/-- Witness for C6: the state built from a 3-entry gain table accepts the
exact integer labels 2 and 0. -/
theorem checkLabel_verdict_witness :
    CheckLabel (Init [0, 1, 7]) [2, 0] 2 = true := by
  apply (checkLabel_verdict (Init [0, 1, 7]) [2, 0] 2).2
  intro i hi
  interval_cases i
  · exact ⟨2, by norm_num [List.getD], by norm_num [Init]⟩
  · exact ⟨0, by norm_num [List.getD], by norm_num [Init]⟩

/-- Claim C5 as frozen ("`Gain(l) = 2^l - 1` for every `l ≥ 3`") is false
at label `l = 32`: there the shift count of the 32-bit `1 << l` is masked
to 0, so the code produces gain `(1 << 0) - 1 = 0`, not `2^32 - 1`. -/
theorem calGain_overflow_counterexample :
    CalGain 32 1 1 = 0 ∧ (0 : ℚ) ≠ 2 ^ (32 : ℤ).toNat - 1 := by
  constructor
  · simp only [CalGain]
    rw [if_neg (by norm_num), if_neg (by norm_num), if_neg (by norm_num),
      show Int.toNat 32 % 32 = 0 from rfl]
    norm_num [wrap32]
  · rw [show Int.toNat 32 = 32 from rfl]
    norm_num

/-- Claim C5, amended: the gain formula — `Gain(0) = 0`,
`Gain(1) = 1/theta1`, `Gain(2) = 2/(theta1*theta2) + 1/theta1`, and
`Gain(l) = 2^l - 1` for every label `l` with `3 ≤ l ≤ 30` (the range in
which the 32-bit `(1 << l) - 1` of the source does not overflow),
independent of `theta1` and `theta2` (the last branch does not mention
the thetas). -/
theorem calGain_formula (th1 th2 : ℚ) :
    CalGain 0 th1 th2 = 0 ∧
    CalGain 1 th1 th2 = 1 / th1 ∧
    CalGain 2 th1 th2 = 2 / (th1 * th2) + 1 / th1 ∧
    ∀ l : ℤ, 3 ≤ l → l ≤ 30 → CalGain l th1 th2 = 2 ^ l.toNat - 1 := by
  refine ⟨rfl, rfl, rfl, ?_⟩
  intro l hl3 hl30
  have h0 : l ≠ 0 := by omega
  have h1 : l ≠ 1 := by omega
  have h2 : l ≠ 2 := by omega
  have hmask : l.toNat % 32 = l.toNat := Nat.mod_eq_of_lt (by omega)
  have hpow : (2:ℤ) ^ l.toNat ≤ 2 ^ 30 := pow_le_pow_right₀ (by norm_num) (by omega)
  have hpos : (0:ℤ) < 2 ^ l.toNat := pow_pos (by norm_num) l.toNat
  have h30 : (2:ℤ) ^ 30 = 1073741824 := by norm_num
  have h31 : (2:ℤ) ^ 31 = 2147483648 := by norm_num
  rw [h30] at hpow
  simp only [CalGain, if_neg h0, if_neg h1, if_neg h2, hmask]
  rw [wrap32_eq_self (2 ^ l.toNat - 1) (by rw [h31]; omega) (by rw [h31]; omega)]
  push_cast
  ring

/-- Witness for C5 (amended) at the concrete input `l = 5`, `theta1 = 2`,
`theta2 = 3`: the gain is `2^5 - 1 = 31`. -/
theorem calGain_formula_witness : CalGain 5 2 3 = 31 := by
  have h := (calGain_formula 2 3).2.2.2 5 (by norm_num) (by norm_num)
  rw [h, show ((5:ℤ).toNat) = 5 from rfl]
  norm_num

/-- Claim C7: for a non-null boundary array, `CheckMetadata` fails exactly
when some per-query item count `qb (i+1) - qb i` (for `i < num_queries`)
exceeds `kMaxPosition = 10000`. -/
theorem checkMetadata_fails_iff (qb : ℕ → ℤ) (nq : ℕ) :
    CheckMetadata (some qb) nq = false ↔
      ∃ i < nq, (kMaxPosition : ℤ) < qb (i + 1) - qb i := by
  unfold CheckMetadata
  by_cases hnq : 0 < nq
  · simp only [if_pos hnq, List.all_eq_false, List.mem_range, decide_eq_true_eq,
      not_le]
  · have hz : nq = 0 := by omega
    subst hz
    simp

/-- Witness for C7: a single query of 10001 rows is rejected. -/
theorem checkMetadata_fails_iff_witness :
    CheckMetadata (some (fun i : ℕ => if i = 0 then 0 else 10001)) 1 = false := by
  rw [checkMetadata_fails_iff]
  exact ⟨0, by norm_num, by norm_num [kMaxPosition]⟩

/-- Claim C8: after `Init`, the discount table has exactly 10000 entries,
entry `i` is `1 / log2(2 + i)`, entry `0` is `1.0`, and the entries are
strictly decreasing in the index. -/
theorem init_discount_table (lg : List ℚ) :
    (Init lg).discount_.length = 10000 ∧
    (∀ i < 10000, (Init lg).discount_.getD i 0 = 1 / Real.logb 2 (2 + i)) ∧
    (Init lg).discount_.getD 0 0 = 1 ∧
    ∀ i j : ℕ, i < j → j < 10000 →
      (Init lg).discount_.getD j 0 < (Init lg).discount_.getD i 0 := by
  refine ⟨Init_discount_length lg, ?_, ?_, ?_⟩
  · intro i hi
    rw [Init_discount_getD lg i hi]
    rfl
  · rw [Init_discount_getD lg 0 (by norm_num [kMaxPosition])]
    exact discountAt_zero
  · intro i j hij hj
    rw [Init_discount_getD lg j hj,
      Init_discount_getD lg i (by simp only [kMaxPosition]; omega)]
    exact discountAt_anti i j hij

/-- Witness for C8: with an arbitrary concrete label-gain table, entry 1 of
the discount table is strictly below entry 0. -/
theorem init_discount_table_witness :
    (Init []).discount_.getD 1 0 < (Init []).discount_.getD 0 0 :=
  (init_discount_table []).2.2.2 0 1 (by norm_num) (by norm_num)

/-- Claim C9: the label-gain table installed by `Init` never influences a
computed metric: any two installed tables give identical `CalMaxDCGAtK`,
`CalMaxDCG` and `CalDCG` results on identical inputs (and `CalGain` reads
no table at all). -/
theorem metrics_ignore_label_gain (lg1 lg2 : List ℚ) (k : ℕ) (ks : List ℕ)
    (label : List ℤ) (score theta1 theta2 : List ℚ) (n : ℕ) :
    CalMaxDCGAtK (Init lg1) k label theta1 theta2 n =
      CalMaxDCGAtK (Init lg2) k label theta1 theta2 n ∧
    CalMaxDCG (Init lg1) ks label theta1 theta2 n =
      CalMaxDCG (Init lg2) ks label theta1 theta2 n ∧
    CalDCG (Init lg1) ks label score theta1 theta2 n =
      CalDCG (Init lg2) ks label score theta1 theta2 n :=
  ⟨rfl, rfl, rfl⟩

/-- Claim C10: `CheckMetadata` performs no check at all when the
query-boundaries pointer is null or when `num_queries = 0`: it succeeds
vacuously in both cases. -/
theorem checkMetadata_vacuous :
    (∀ n : ℕ, CheckMetadata none n = true) ∧
    (∀ qb : Option (ℕ → ℤ), CheckMetadata qb 0 = true) := by
  constructor
  · intro n
    rfl
  · intro qb
    cases qb with
    | none => rfl
    | some f => simp [CheckMetadata]

end LightGBM
